import Mathlib

/-!
Shallow embedding of the consent-gated recording coordinator in
`src/src/Zoom.cpp` (class `Zoom`), covering the members that the
consent/recording logic touches:

- `participants` (a `std::set<std::string>` of display names, declared in
  the missing `Zoom.h`; modelled as a duplicate-free `List String` built by
  insert-if-absent — `std::set` iterates in key order, the model in
  insertion order; no property proved here depends on which total order the
  roster iterates in),
- `consentStatus` (a `std::map<std::string, bool>`, modelled as an
  association list with C++ `operator[]` default-insertion semantics),
- `recordingStarted` (a `bool`).

External interactions (the Zoom SDK participant list, the HTTP consent
fetch — stubbed in the source with a mock response and a "replace with
your actual HTTP request" comment — and the outcome of
`startRawRecording`) are inputs to the transition functions, and the
side effects the coordinator triggers (`startRawRecording`,
`sendMessage`) are returned as an explicit effect trace.
-/

/-- State of one `Zoom` coordinator: the members of class `Zoom` that the
consent-polling logic reads and writes. -/
structure ZoomState where
  participants : List String
  consentStatus : List (String × Bool)
  recordingStarted : Bool
deriving Repr, DecidableEq

/-- Lookup in the association-list model of `std::map<std::string, bool>`:
`none` models "no entry for this key". -/
def lookupKey (m : List (String × Bool)) (k : String) : Option Bool :=
  match m with
  | [] => none
  | (k', v) :: rest => if k' = k then some v else lookupKey rest k

/-- Write `m[k] = v` as C++ `consentStatus[user] = b;` does: update the
entry in place when the key exists, insert it otherwise.  (`std::map`
inserts at its key-ordered position; an association list appends — only
iteration order differs, and no proved property reads iteration order of
`consentStatus`.) -/
def mapSet (m : List (String × Bool)) (k : String) (v : Bool) : List (String × Bool) :=
  match m with
  | [] => [(k, v)]
  | (k', v') :: rest =>
    if k' = k then (k', v) :: rest else (k', v') :: mapSet rest k v

/-- Read `m[k]` as C++ `std::map::operator[]` does in a read position
(`consentStatus[user]` inside `all_of` / `sendConsentReminder`): if the key
is absent, a value-initialized `false` entry is inserted and returned.
Returns the value read and the possibly-grown map. -/
def mapIndex (m : List (String × Bool)) (k : String) : Bool × List (String × Bool) :=
  match lookupKey m k with
  | some v => (v, m)
  | none => (false, mapSet m k false)

/-- The first loop of `Zoom::onConsentUpdate` (Zoom.cpp:393-395): for each
`user` in `participants`, `consentStatus[user] = find(consentingUsers, user) != end`. -/
def applyConsent (participants consentingUsers : List String)
    (m : List (String × Bool)) : List (String × Bool) :=
  match participants with
  | [] => m
  | u :: rest => applyConsent rest consentingUsers (mapSet m u (consentingUsers.contains u))

/-- The `std::all_of(participants..., [this](user){ return consentStatus[user]; })`
check of `Zoom::onConsentUpdate` (Zoom.cpp:397-399): short-circuits at the
first `false`, and each `consentStatus[user]` read goes through
`operator[]`, which may insert a default `false` entry.  Returns the
boolean and the possibly-grown map. -/
def allOfIndex (users : List String) (m : List (String × Bool)) :
    Bool × List (String × Bool) :=
  match users with
  | [] => (true, m)
  | u :: rest =>
    let r := mapIndex m u
    if r.1 then allOfIndex rest r.2 else (false, r.2)

/-- The loop of `Zoom::sendConsentReminder` (Zoom.cpp:412-416): for each
`user` in `participants`, if `!consentStatus[user]` (an `operator[]` read,
inserting `false` when absent) append `"\n- " + user` to the message. -/
def reminderFold (users : List String) (m : List (String × Bool)) (acc : String) :
    List (String × Bool) × String :=
  match users with
  | [] => (m, acc)
  | u :: rest =>
    let r := mapIndex m u
    if r.1 then reminderFold rest r.2 acc
    else reminderFold rest r.2 (acc ++ "\n- " ++ u)

/-- `Zoom::sendConsentReminder` (Zoom.cpp:410-418): builds the reminder
text from the fixed header plus one line per non-consenting participant,
mutating `consentStatus` through `operator[]` as it reads.  Returns the
updated map and the text handed to `sendMessage`. -/
def sendConsentReminder (participants : List String) (m : List (String × Bool)) :
    List (String × Bool) × String :=
  reminderFold participants m "Please provide your consent for recording."

/-- External side effects the coordinator triggers.  `startRecording ok`
records one invocation of `Zoom::startRawRecording`, with `ok` the outcome
the SDK returned (`true` = `SDKERR_SUCCESS`); the source ignores this
outcome.  `sendMessage t` records one `Zoom::sendMessage(t)` broadcast. -/
inductive Effect where
  | startRecording : Bool → Effect
  | sendMessage : String → Effect
deriving Repr, DecidableEq

/-- `Zoom::onConsentUpdate` (Zoom.cpp:392-407): overwrite each roster
participant's consent entry with membership in `consentingUsers`, then if
`all_of` the roster consents, set `recordingStarted = true` and invoke
`startRawRecording()` (outcome `recOk`, ignored); otherwise send a
reminder. -/
def onConsentUpdate (s : ZoomState) (consentingUsers : List String) (recOk : Bool) :
    ZoomState × List Effect :=
  let cs1 := applyConsent s.participants consentingUsers s.consentStatus
  let r := allOfIndex s.participants cs1
  if r.1 then
    ({ s with consentStatus := r.2, recordingStarted := true },
      [Effect.startRecording recOk])
  else
    let r2 := sendConsentReminder s.participants r.2
    ({ s with consentStatus := r2.1 }, [Effect.sendMessage r2.2])

/-- `Zoom::startRecordingIfAllConsented` (Zoom.cpp:421-431): `all_of` over
the entries of `consentStatus` (the whole map, not the roster); if every
entry's value is `true` — vacuously so for an empty map — invoke
`startRawRecording()` (outcome `recOk`, ignored).  Touches no state. -/
def startRecordingIfAllConsented (s : ZoomState) (recOk : Bool) :
    ZoomState × List Effect :=
  if s.consentStatus.all (fun e => e.2) then (s, [Effect.startRecording recOk])
  else (s, [])

/-- `std::set<std::string>::insert`: membership-based insert (the model
keeps insertion order where `std::set` keeps key order; see module note). -/
def insertSet (l : List String) (x : String) : List String :=
  if l.contains x then l else l ++ [x]

/-- The roster built by `Zoom::fetchParticipants` (Zoom.cpp:324-342) from
the SDK participant list, given as `(userId, userName)` pairs: skip
`userId == 0`, insert each remaining user's display name into the set. -/
def buildRoster (sessionUsers : List (Nat × String)) : List String :=
  sessionUsers.foldl (fun acc p => if p.1 ≠ 0 then insertSet acc p.2 else acc) []

/-- `Zoom::fetchParticipants`: `participants.clear()` then rebuild from the
session's participant list — a full replacement keyed by display name. -/
def fetchParticipants (sessionUsers : List (Nat × String)) (s : ZoomState) : ZoomState :=
  { s with participants := buildRoster sessionUsers }

/-- One poll cycle's external inputs: the SDK participant list read by
`fetchParticipants`, the parsed consent fetch (`none` models a fetch whose
response `Json::Reader::parse` rejects — the `if (reader.parse(...))`
guard at Zoom.cpp:379 — or that failed), and the outcome of
`startRawRecording` should this cycle invoke it. -/
structure CycleInput where
  sessionUsers : List (Nat × String)
  fetchResult : Option (List String)
  recOutcomeOk : Bool
deriving Repr

/-- The body of the `while` loop of `Zoom::checkConsentStatus`
(Zoom.cpp:360-387): refresh participants, then — only if the response
parses — hand the consenting-user list to `onConsentUpdate`.  A failed
parse applies no consent update and triggers no effect. -/
def pollCycle (s : ZoomState) (i : CycleInput) : ZoomState × List Effect :=
  let s1 := fetchParticipants i.sessionUsers s
  match i.fetchResult with
  | none => (s1, [])
  | some users => onConsentUpdate s1 users i.recOutcomeOk

/-- `Zoom::checkConsentStatus` (Zoom.cpp:359-388): `while (!recordingStarted)`
run poll cycles.  Driven by the list of external inputs, one per interval;
returns the final state, the effect trace, and how many cycles ran before
the loop exited (`< inputs.length` means the loop condition stopped it). -/
def checkConsentStatus (s : ZoomState) (inputs : List CycleInput) :
    ZoomState × List Effect × Nat :=
  match inputs with
  | [] => (s, [], 0)
  | i :: rest =>
    if s.recordingStarted then (s, [], 0)
    else
      let r1 := pollCycle s i
      let r2 := checkConsentStatus r1.1 rest
      (r2.1, r1.2 ++ r2.2.1, r2.2.2 + 1)

/-- The detached tasks `Zoom::startConsentCheck` spawns: the 30-second
one-shot reminder thread and the `checkConsentStatus` poll thread. -/
inductive SpawnedTask where
  | reminderTimer : SpawnedTask
  | poller : SpawnedTask
deriving Repr, DecidableEq

/-- `Zoom::startConsentCheck` (Zoom.cpp:435-444): unconditionally spawn a
detached reminder-timer thread and a detached poll-loop thread.  The model
appends one task per `std::thread(...).detach()` to the list of tasks
spawned so far; the source keeps no handle and checks no started flag. -/
def startConsentCheck (spawned : List SpawnedTask) : List SpawnedTask :=
  spawned ++ [SpawnedTask.reminderTimer, SpawnedTask.poller]

/-- Number of `startRawRecording` invocations in an effect trace. -/
def countStart (effs : List Effect) : Nat :=
  effs.countP fun e => match e with
    | Effect.startRecording _ => true
    | _ => false

/-- The participants a reminder lists: ids in `users` whose entry in `m`
is `false` or absent (absence reads as `false` through `operator[]`), in
`users` iteration order.  This is the spec's `nonConsenting` contract,
used to characterize the text `sendConsentReminder` builds. -/
def nonConsentingIds (users : List String) (m : List (String × Bool)) : List String :=
  users.filter fun u => !((lookupKey m u).getD false)

/-- The reminder body for a list of non-consenting ids: one `"\n- " ++ id`
line per id, in order. -/
def reminderTextOf (ids : List String) : String :=
  match ids with
  | [] => ""
  | u :: rest => "\n- " ++ u ++ reminderTextOf rest

/-! Helper lemmas about the map model. -/

theorem lookupKey_mapSet (m : List (String × Bool)) (k : String) (v : Bool) (u : String) :
    lookupKey (mapSet m k v) u = if k = u then some v else lookupKey m u := by
  induction m with
  | nil => simp [mapSet, lookupKey]
  | cons hd t ih =>
    obtain ⟨k', v'⟩ := hd
    by_cases h1 : k' = k
    · subst h1
      by_cases h2 : k' = u
      · subst h2; simp [mapSet, lookupKey]
      · have h3 : k' ≠ u := h2
        simp [mapSet, lookupKey, h3, fun h : k' = u => h2 h]
    · by_cases h2 : k' = u
      · subst h2
        have h3 : k ≠ k' := fun h => h1 h.symm
        simp [mapSet, lookupKey, h1, h3]
      · simp [mapSet, lookupKey, h1, h2, ih]

theorem mapIndex_fst (m : List (String × Bool)) (k : String) :
    (mapIndex m k).1 = (lookupKey m k).getD false := by
  unfold mapIndex
  cases h : lookupKey m k <;> simp [h]

theorem getD_mapIndex_snd (m : List (String × Bool)) (k u : String) :
    (lookupKey (mapIndex m k).2 u).getD false = (lookupKey m u).getD false := by
  unfold mapIndex
  cases h : lookupKey m k with
  | some v => simp
  | none =>
    simp only [lookupKey_mapSet]
    split_ifs with hk
    · subst hk; simp [h]
    · rfl

theorem lookupKey_mapIndex_snd_some (m : List (String × Bool)) (k u : String) (v : Bool)
    (h : lookupKey m u = some v) : lookupKey (mapIndex m k).2 u = some v := by
  unfold mapIndex
  cases hk : lookupKey m k with
  | some w => simpa using h
  | none =>
    simp only [lookupKey_mapSet]
    split_ifs with he
    · subst he; rw [h] at hk; cases hk
    · exact h

theorem lookupKey_mapIndex_snd_ne (m : List (String × Bool)) (k u : String)
    (h : k ≠ u) : lookupKey (mapIndex m k).2 u = lookupKey m u := by
  unfold mapIndex
  cases hk : lookupKey m k with
  | some w => rfl
  | none => simp [lookupKey_mapSet, h]

theorem lookupKey_mapIndex_snd_self (m : List (String × Bool)) (k : String) :
    (lookupKey (mapIndex m k).2 k).isSome = true := by
  unfold mapIndex
  cases hk : lookupKey m k with
  | some w => simp [hk]
  | none => simp [lookupKey_mapSet]

theorem all_eq_of_getD_eq (l : List String) (m1 m2 : List (String × Bool))
    (h : ∀ u ∈ l, (lookupKey m1 u).getD false = (lookupKey m2 u).getD false) :
    (l.all fun u => (lookupKey m1 u).getD false) =
      (l.all fun u => (lookupKey m2 u).getD false) := by
  induction l with
  | nil => rfl
  | cons x t ih =>
    simp only [List.all_cons]
    rw [h x (List.mem_cons_self x t), ih fun u hu => h u (List.mem_cons_of_mem x hu)]

/-! Helper lemmas about `applyConsent`. -/

theorem lookupKey_applyConsent (R P : List String) (m : List (String × Bool)) (u : String) :
    lookupKey (applyConsent R P m) u =
      if u ∈ R then some (P.contains u) else lookupKey m u := by
  induction R generalizing m with
  | nil => simp [applyConsent]
  | cons r rest ih =>
    simp only [applyConsent, ih, lookupKey_mapSet, List.mem_cons]
    by_cases h1 : u ∈ rest
    · simp [h1]
    · by_cases h2 : u = r
      · subst h2; simp [h1]
      · simp only [List.mem_cons] at h1 ⊢
        simp [h1, h2]
        intro h
        exact absurd h.symm h2

/-! Helper lemmas about `allOfIndex`. -/

theorem allOfIndex_fst (R : List String) (m : List (String × Bool)) :
    (allOfIndex R m).1 = R.all fun u => (lookupKey m u).getD false := by
  induction R generalizing m with
  | nil => rfl
  | cons r rest ih =>
    simp only [allOfIndex, List.all_cons, mapIndex_fst]
    by_cases h : (lookupKey m r).getD false
    · rw [if_pos h, h, ih, Bool.true_and]
      exact all_eq_of_getD_eq rest _ m fun u _ => getD_mapIndex_snd m r u
    · rw [if_neg (by simpa using h)]
      simp [h]

theorem getD_allOfIndex_snd (R : List String) (m : List (String × Bool)) (u : String) :
    (lookupKey (allOfIndex R m).2 u).getD false = (lookupKey m u).getD false := by
  induction R generalizing m with
  | nil => rfl
  | cons r rest ih =>
    simp only [allOfIndex]
    by_cases h : (mapIndex m r).1
    · rw [if_pos h, ih, getD_mapIndex_snd]
    · rw [if_neg (by simpa using h)]
      exact getD_mapIndex_snd m r u

theorem lookupKey_allOfIndex_snd_some (R : List String) (m : List (String × Bool))
    (u : String) (v : Bool) (h : lookupKey m u = some v) :
    lookupKey (allOfIndex R m).2 u = some v := by
  induction R generalizing m with
  | nil => exact h
  | cons r rest ih =>
    simp only [allOfIndex]
    by_cases hb : (mapIndex m r).1
    · rw [if_pos hb]
      exact ih _ (lookupKey_mapIndex_snd_some m r u v h)
    · rw [if_neg (by simpa using hb)]
      exact lookupKey_mapIndex_snd_some m r u v h

theorem lookupKey_allOfIndex_snd_ne (R : List String) (m : List (String × Bool))
    (u : String) (h : R.contains u = false) :
    lookupKey (allOfIndex R m).2 u = lookupKey m u := by
  induction R generalizing m with
  | nil => rfl
  | cons r rest ih =>
    simp only [List.contains_cons, Bool.or_eq_false_iff] at h
    have hru : r ≠ u := fun he => by simp [he] at h
    simp only [allOfIndex]
    by_cases hb : (mapIndex m r).1
    · rw [if_pos hb, ih _ h.2, lookupKey_mapIndex_snd_ne m r u hru]
    · rw [if_neg (by simpa using hb)]
      exact lookupKey_mapIndex_snd_ne m r u hru

/-! Helper lemmas about `reminderFold`. -/

theorem getD_reminderFold_fst (R : List String) (m : List (String × Bool))
    (acc : String) (u : String) :
    (lookupKey (reminderFold R m acc).1 u).getD false = (lookupKey m u).getD false := by
  induction R generalizing m acc with
  | nil => rfl
  | cons r rest ih =>
    simp only [reminderFold]
    by_cases h : (mapIndex m r).1
    · rw [if_pos h, ih, getD_mapIndex_snd]
    · rw [if_neg (by simpa using h), ih, getD_mapIndex_snd]

theorem lookupKey_reminderFold_fst_some (R : List String) (m : List (String × Bool))
    (acc : String) (u : String) (v : Bool) (h : lookupKey m u = some v) :
    lookupKey (reminderFold R m acc).1 u = some v := by
  induction R generalizing m acc with
  | nil => exact h
  | cons r rest ih =>
    simp only [reminderFold]
    by_cases hb : (mapIndex m r).1
    · rw [if_pos hb]
      exact ih _ _ (lookupKey_mapIndex_snd_some m r u v h)
    · rw [if_neg (by simpa using hb)]
      exact ih _ _ (lookupKey_mapIndex_snd_some m r u v h)

theorem lookupKey_reminderFold_fst_ne (R : List String) (m : List (String × Bool))
    (acc : String) (u : String) (h : R.contains u = false) :
    lookupKey (reminderFold R m acc).1 u = lookupKey m u := by
  induction R generalizing m acc with
  | nil => rfl
  | cons r rest ih =>
    simp only [List.contains_cons, Bool.or_eq_false_iff] at h
    have hru : r ≠ u := fun he => by simp [he] at h
    simp only [reminderFold]
    by_cases hb : (mapIndex m r).1
    · rw [if_pos hb, ih _ _ h.2, lookupKey_mapIndex_snd_ne m r u hru]
    · rw [if_neg (by simpa using hb), ih _ _ h.2, lookupKey_mapIndex_snd_ne m r u hru]

theorem isSome_reminderFold_fst (R : List String) (m : List (String × Bool))
    (acc : String) (u : String) (h : u ∈ R) :
    (lookupKey (reminderFold R m acc).1 u).isSome = true := by
  induction R generalizing m acc with
  | nil => cases h
  | cons r rest ih =>
    simp only [reminderFold]
    rcases List.mem_cons.mp h with he | ht
    · subst he
      have hs : (lookupKey (mapIndex m u).2 u).isSome = true :=
        lookupKey_mapIndex_snd_self m u
      obtain ⟨v, hv⟩ := Option.isSome_iff_exists.mp hs
      by_cases hb : (mapIndex m u).1
      · rw [if_pos hb, lookupKey_reminderFold_fst_some _ _ _ _ v hv]; rfl
      · rw [if_neg (by simpa using hb), lookupKey_reminderFold_fst_some _ _ _ _ v hv]; rfl
    · by_cases hb : (mapIndex m r).1
      · rw [if_pos hb]; exact ih _ _ ht
      · rw [if_neg (by simpa using hb)]; exact ih _ _ ht

theorem nonConsentingIds_mapIndex (rest : List String) (m : List (String × Bool))
    (r : String) : nonConsentingIds rest (mapIndex m r).2 = nonConsentingIds rest m := by
  unfold nonConsentingIds
  exact List.filter_congr fun u _ => by rw [getD_mapIndex_snd]

theorem reminderFold_msg (R : List String) (m : List (String × Bool)) (acc : String) :
    (reminderFold R m acc).2 = acc ++ reminderTextOf (nonConsentingIds R m) := by
  induction R generalizing m acc with
  | nil => simp [reminderFold, nonConsentingIds, reminderTextOf]
  | cons r rest ih =>
    by_cases h : (lookupKey m r).getD false
    · have hb : (mapIndex m r).1 = true := by rw [mapIndex_fst]; exact h
      simp only [reminderFold, hb, if_true]
      rw [ih, nonConsentingIds_mapIndex]
      unfold nonConsentingIds
      rw [List.filter_cons_of_neg (by simp [h])]
    · have hb : (mapIndex m r).1 = false := by rw [mapIndex_fst]; simpa using h
      simp only [reminderFold, hb, Bool.false_eq_true, if_false]
      rw [ih, nonConsentingIds_mapIndex]
      unfold nonConsentingIds
      rw [List.filter_cons_of_pos (by simp [h])]
      simp [reminderTextOf, String.append_assoc]

/-! Helper lemmas about `onConsentUpdate` and the poll loop. -/

theorem allOfIndex_applyConsent_fst (R P : List String) (m : List (String × Bool)) :
    (allOfIndex R (applyConsent R P m)).1 = R.all fun u => P.contains u := by
  rw [allOfIndex_fst, Bool.eq_iff_iff]
  simp only [List.all_eq_true]
  constructor <;> intro h x hx
  · have hv := h x hx
    rw [lookupKey_applyConsent, if_pos hx] at hv
    simpa using hv
  · rw [lookupKey_applyConsent, if_pos hx]
    simpa using h x hx

theorem onConsentUpdate_eq (s : ZoomState) (P : List String) (ok : Bool) :
    onConsentUpdate s P ok =
      if s.participants.all (fun u => P.contains u) then
        ({ s with
            consentStatus :=
              (allOfIndex s.participants
                (applyConsent s.participants P s.consentStatus)).2,
            recordingStarted := true }, [Effect.startRecording ok])
      else
        ({ s with
            consentStatus :=
              (sendConsentReminder s.participants
                (allOfIndex s.participants
                  (applyConsent s.participants P s.consentStatus)).2).1 },
          [Effect.sendMessage
            (sendConsentReminder s.participants
              (allOfIndex s.participants
                (applyConsent s.participants P s.consentStatus)).2).2]) := by
  simp only [onConsentUpdate]
  rw [allOfIndex_applyConsent_fst]

theorem countStart_append (a b : List Effect) :
    countStart (a ++ b) = countStart a + countStart b :=
  List.countP_append _ _ _

theorem countStart_onConsentUpdate_le (s : ZoomState) (P : List String) (ok : Bool) :
    countStart (onConsentUpdate s P ok).2 ≤ 1 := by
  rw [onConsentUpdate_eq]
  split_ifs <;> simp [countStart]

theorem onConsentUpdate_not_started (s : ZoomState) (P : List String) (ok : Bool)
    (h : (onConsentUpdate s P ok).1.recordingStarted = false) :
    countStart (onConsentUpdate s P ok).2 = 0 ∧ s.recordingStarted = false := by
  rw [onConsentUpdate_eq] at h ⊢
  by_cases hg : s.participants.all (fun u => P.contains u)
  · rw [if_pos hg] at h
    simp at h
  · rw [if_neg hg] at h ⊢
    refine ⟨by simp [countStart], ?_⟩
    simpa using h

theorem pollCycle_consentStatus_none (s : ZoomState) (i : CycleInput)
    (h : i.fetchResult = none) :
    pollCycle s i = ({ s with participants := buildRoster i.sessionUsers }, []) := by
  unfold pollCycle fetchParticipants
  rw [h]

theorem countStart_pollCycle_le (s : ZoomState) (i : CycleInput) :
    countStart (pollCycle s i).2 ≤ 1 := by
  unfold pollCycle
  cases i.fetchResult with
  | none => simp [countStart]
  | some users => exact countStart_onConsentUpdate_le _ users i.recOutcomeOk

theorem pollCycle_not_started (s : ZoomState) (i : CycleInput)
    (h : (pollCycle s i).1.recordingStarted = false) :
    countStart (pollCycle s i).2 = 0 ∧ s.recordingStarted = false := by
  unfold pollCycle at h ⊢
  cases hf : i.fetchResult with
  | none =>
    rw [hf] at h
    exact ⟨by simp [countStart], h⟩
  | some users =>
    rw [hf] at h
    exact onConsentUpdate_not_started _ users i.recOutcomeOk h

theorem checkConsentStatus_started (s : ZoomState) (inputs : List CycleInput)
    (h : s.recordingStarted = true) : checkConsentStatus s inputs = (s, [], 0) := by
  cases inputs <;> simp [checkConsentStatus, h]

theorem countStart_checkConsentStatus_le (inputs : List CycleInput) (s : ZoomState) :
    countStart (checkConsentStatus s inputs).2.1 ≤ 1 := by
  induction inputs generalizing s with
  | nil => simp [checkConsentStatus, countStart]
  | cons i rest ih =>
    by_cases h : s.recordingStarted
    · simp [checkConsentStatus, h, countStart]
    · simp only [checkConsentStatus, Bool.not_eq_true] at h ⊢
      rw [if_neg (by simp [h])]
      by_cases h2 : (pollCycle s i).1.recordingStarted
      · rw [checkConsentStatus_started _ rest h2]
        simpa [countStart_append, countStart] using countStart_pollCycle_le s i
      · have h3 := pollCycle_not_started s i (by simpa using h2)
        simpa [countStart_append, h3.1] using ih (pollCycle s i).1

theorem checkConsentStatus_early_exit (inputs : List CycleInput) (s : ZoomState)
    (h : (checkConsentStatus s inputs).2.2 < inputs.length) :
    (checkConsentStatus s inputs).1.recordingStarted = true := by
  induction inputs generalizing s with
  | nil => simp [checkConsentStatus] at h
  | cons i rest ih =>
    by_cases hs : s.recordingStarted
    · simpa [checkConsentStatus_started _ _ hs] using hs
    · simp only [checkConsentStatus, Bool.not_eq_true] at hs h ⊢
      rw [if_neg (by simp [hs])] at h ⊢
      exact ih _ (by simpa [Nat.succ_lt_succ_iff] using h)

theorem checkConsentStatus_all_none (inputs : List CycleInput) (s : ZoomState)
    (h1 : s.recordingStarted = false) (h2 : ∀ i ∈ inputs, i.fetchResult = none) :
    (checkConsentStatus s inputs).2.2 = inputs.length ∧
      (checkConsentStatus s inputs).1.consentStatus = s.consentStatus ∧
      (checkConsentStatus s inputs).1.recordingStarted = false ∧
      (checkConsentStatus s inputs).2.1 = [] := by
  induction inputs generalizing s with
  | nil => simp [checkConsentStatus, h1]
  | cons i rest ih =>
    have hf : i.fetchResult = none := h2 i (List.mem_cons_self i rest)
    have hc := pollCycle_consentStatus_none s i hf
    simp only [checkConsentStatus]
    rw [if_neg (by simp [h1]), hc]
    have hrec := ih { s with participants := buildRoster i.sessionUsers } h1
      fun j hj => h2 j (List.mem_cons_of_mem i hj)
    refine ⟨by simpa using hrec.1, by simpa using hrec.2.1,
      by simpa using hrec.2.2.1, by simpa using hrec.2.2.2⟩

/-! Helper lemmas about the roster. -/

theorem insertSet_nodup (l : List String) (x : String) (h : l.Nodup) :
    (insertSet l x).Nodup := by
  unfold insertSet
  split_ifs with hc
  · exact h
  · have hx : x ∉ l := fun hm => hc (List.elem_iff.mpr hm)
    simpa [List.concat_eq_append] using List.Nodup.concat hx h

theorem buildRoster_nodup (l : List (Nat × String)) : (buildRoster l).Nodup := by
  suffices h : ∀ acc : List String, acc.Nodup →
      (List.foldl (fun acc p => if p.1 ≠ 0 then insertSet acc p.2 else acc) acc l).Nodup by
    exact h [] List.nodup_nil
  induction l with
  | nil => intro acc hacc; simpa using hacc
  | cons p rest ih =>
    intro acc hacc
    simp only [List.foldl_cons]
    apply ih
    split_ifs with hp
    · exact insertSet_nodup _ _ hacc
    · exact hacc

/-! Claim theorems. -/

/-- C1: in the sequential poll loop `checkConsentStatus`, `recordingStarted`
goes `false → true` at most once: the whole run invokes `startRawRecording`
at most once, and once `recordingStarted` is `true` the loop runs no further
cycle and no further consent update — Started is terminal for the loop. -/
theorem checkConsentStatus_start_at_most_once (s : ZoomState) (inputs : List CycleInput) :
    countStart (checkConsentStatus s inputs).2.1 ≤ 1 ∧
      (s.recordingStarted = true → checkConsentStatus s inputs = (s, [], 0)) :=
  ⟨countStart_checkConsentStatus_le inputs s,
   fun h => checkConsentStatus_started s inputs h⟩

/-- C1 witness: a started coordinator given one full-consent poll cycle
performs no cycle, triggers nothing, and is unchanged. -/
theorem checkConsentStatus_start_at_most_once_witness :
    countStart (checkConsentStatus ⟨["a"], [("a", true)], true⟩
        [⟨[(1, "a")], some ["a"], true⟩]).2.1 ≤ 1 ∧
      checkConsentStatus ⟨["a"], [("a", true)], true⟩ [⟨[(1, "a")], some ["a"], true⟩]
        = (⟨["a"], [("a", true)], true⟩, [], 0) :=
  ⟨(checkConsentStatus_start_at_most_once ⟨["a"], [("a", true)], true⟩
      [⟨[(1, "a")], some ["a"], true⟩]).1,
   (checkConsentStatus_start_at_most_once ⟨["a"], [("a", true)], true⟩
      [⟨[(1, "a")], some ["a"], true⟩]).2 rfl⟩

/-- C2 counterexample: on an empty roster the gate's `all_of` check is
vacuously `true` (not `false` as claimed), and `onConsentUpdate` on an
empty roster sets `recordingStarted` and invokes the recording start. -/
theorem allConsented_empty_roster_cex :
    (allOfIndex ([] : List String) ([] : List (String × Bool))).1 = true ∧
      (onConsentUpdate ⟨[], [], false⟩ [] true).1.recordingStarted = true ∧
      (onConsentUpdate ⟨[], [], false⟩ [] true).2 = [Effect.startRecording true] :=
  ⟨rfl, rfl, rfl⟩

/-- C2 amended: the all-consented check used by the gate returns `true` iff
every id in the roster maps to `true` in the store (an absent entry reads
as `false`); there is no non-emptiness requirement, so the check on an
empty roster is vacuously `true`. -/
theorem allConsented_check_spec (R : List String) (m : List (String × Bool)) :
    (allOfIndex R m).1 = (R.all fun u => (lookupKey m u).getD false) ∧
      (R = [] → (allOfIndex R m).1 = true) :=
  ⟨allOfIndex_fst R m, fun h => by subst h; rfl⟩

/-- C2 witness: the check evaluated on a singleton store and the empty
roster. -/
theorem allConsented_check_spec_witness :
    (allOfIndex [] [("x", false)]).1
        = (List.all [] fun u => (lookupKey [("x", false)] u).getD false) ∧
      (allOfIndex ([] : List String) [("x", false)]).1 = true :=
  ⟨(allConsented_check_spec [] [("x", false)]).1,
   (allConsented_check_spec [] [("x", false)]).2 rfl⟩

/-- C3 counterexample: participant "a" has a `true` entry and the roster
contains "a", but a poll result not listing "a" clears the entry to
`false` — the update is not additive, existing consent does not persist. -/
theorem applyConsent_clears_true_cex :
    lookupKey (onConsentUpdate ⟨["a"], [("a", true)], false⟩ [] true).1.consentStatus "a"
      = some false := rfl

/-- C3 amended: applying a poll result overwrites the entry of every roster
id: after the update a roster id maps to `true` iff the poll result lists
it, so a `true` entry for a roster id absent from the poll is cleared. -/
theorem onConsentUpdate_overwrites_roster_entries (s : ZoomState) (P : List String)
    (ok : Bool) (u : String) (h : u ∈ s.participants) :
    lookupKey (onConsentUpdate s P ok).1.consentStatus u = some (P.contains u) := by
  rw [onConsentUpdate_eq]
  have hbase : lookupKey (applyConsent s.participants P s.consentStatus) u
      = some (P.contains u) := by
    rw [lookupKey_applyConsent, if_pos h]
  have h2 := lookupKey_allOfIndex_snd_some s.participants _ u (P.contains u) hbase
  split_ifs with hg
  · simpa using h2
  · simpa using lookupKey_reminderFold_fst_some s.participants _ _ u (P.contains u) h2

/-- C3 witness: roster ["a", "b"], store empty, poll ["b"]: afterwards "b"
maps to `true` (its poll membership). -/
theorem onConsentUpdate_overwrites_roster_entries_witness :
    lookupKey (onConsentUpdate ⟨["a", "b"], [], false⟩ ["b"] true).1.consentStatus "b"
      = some ((["b"] : List String).contains "b") :=
  onConsentUpdate_overwrites_roster_entries ⟨["a", "b"], [], false⟩ ["b"] true "b" (by simp)

/-- C4 counterexample: participant "a" left (roster is ["b"]) yet after a
full-consent update "a"'s entry survives, so the store's keys are not a
subset of the roster; and such a stale entry does affect a later gate
evaluation — `startRecordingIfAllConsented` withholds the start because of
a departed participant's `false` entry even though the sole roster member
consented. -/
theorem reconcile_no_pruning_cex :
    lookupKey (onConsentUpdate ⟨["b"], [("a", true)], false⟩ ["b"] true).1.consentStatus "a"
        = some true ∧
      (onConsentUpdate ⟨["b"], [("a", true)], false⟩ ["b"] true).1.participants = ["b"] ∧
      (startRecordingIfAllConsented ⟨["b"], [("a", false), ("b", true)], false⟩ true).2 = [] :=
  ⟨rfl, rfl, rfl⟩

/-- C4 amended: no pruning occurs — an entry whose key is not in the roster
survives every `onConsentUpdate` unchanged, so departed participants leave
stale entries behind (which the whole-map gate
`startRecordingIfAllConsented` then reads, per the C4 counterexample). -/
theorem onConsentUpdate_preserves_stale_entries (s : ZoomState) (P : List String)
    (ok : Bool) (u : String) (v : Bool) (h1 : u ∉ s.participants)
    (h2 : lookupKey s.consentStatus u = some v) :
    lookupKey (onConsentUpdate s P ok).1.consentStatus u = some v := by
  rw [onConsentUpdate_eq]
  have hb : lookupKey (applyConsent s.participants P s.consentStatus) u = some v := by
    rw [lookupKey_applyConsent, if_neg h1]
    exact h2
  have h3 := lookupKey_allOfIndex_snd_some s.participants _ u v hb
  split_ifs with hg
  · simpa using h3
  · simpa using lookupKey_reminderFold_fst_some s.participants _ _ u v h3

/-- C4 witness: the stale `false` entry of departed "x" survives an update
for roster ["b"]. -/
theorem onConsentUpdate_preserves_stale_entries_witness :
    lookupKey (onConsentUpdate ⟨["b"], [("x", false)], false⟩ [] true).1.consentStatus "x"
      = some false :=
  onConsentUpdate_preserves_stale_entries ⟨["b"], [("x", false)], false⟩ [] true "x" false
    (by simp) rfl

/-- C5 counterexample: `recOk = false` models `startRawRecording` returning
a recording error; `onConsentUpdate` has already set `recordingStarted`
before invoking it and ignores the outcome, so the state is Started (not
NotStarted as claimed) and a subsequent full-consent poll cycle performs no
retry: the loop exits immediately with no further recording-start
invocation. -/
theorem recording_failure_no_retry_cex :
    (onConsentUpdate ⟨["a"], [], false⟩ ["a"] false).1 = ⟨["a"], [("a", true)], true⟩ ∧
      (onConsentUpdate ⟨["a"], [], false⟩ ["a"] false).2 = [Effect.startRecording false] ∧
      checkConsentStatus ⟨["a"], [("a", true)], true⟩ [⟨[(1, "a")], some ["a"], true⟩]
        = (⟨["a"], [("a", true)], true⟩, [], 0) :=
  ⟨rfl, rfl, rfl⟩

/-- C5 amended: the post-state of `onConsentUpdate` is independent of the
recording-start outcome — `recordingStarted` is set to `true` before
`startRawRecording` is invoked and is not reset on failure, so a failed
start leaves the state Started and is never retried. -/
theorem onConsentUpdate_state_ignores_recording_outcome (s : ZoomState)
    (P : List String) (ok : Bool) :
    (onConsentUpdate s P ok).1 = (onConsentUpdate s P true).1 ∧
      (s.participants.all (fun u => P.contains u) = true →
        (onConsentUpdate s P ok).1.recordingStarted = true) := by
  rw [onConsentUpdate_eq, onConsentUpdate_eq]
  constructor
  · split_ifs <;> rfl
  · intro h
    rw [if_pos h]

/-- C5 witness: with full consent and a failing recording start the
post-state equals the successful-start post-state and is Started. -/
theorem onConsentUpdate_state_ignores_recording_outcome_witness :
    (onConsentUpdate ⟨["a"], [], false⟩ ["a"] false).1
        = (onConsentUpdate ⟨["a"], [], false⟩ ["a"] true).1 ∧
      (onConsentUpdate ⟨["a"], [], false⟩ ["a"] false).1.recordingStarted = true :=
  ⟨(onConsentUpdate_state_ignores_recording_outcome ⟨["a"], [], false⟩ ["a"] false).1,
   (onConsentUpdate_state_ignores_recording_outcome ⟨["a"], [], false⟩ ["a"] false).2
     (by decide)⟩

/-- C6 counterexample: `startConsentCheck` is not idempotent — a second
call changes the set of spawned tasks, and after a double start two poller
threads exist (two fetches per interval, not one). -/
theorem startConsentCheck_not_idempotent_cex :
    startConsentCheck (startConsentCheck []) ≠ startConsentCheck [] ∧
      (startConsentCheck (startConsentCheck [])).count SpawnedTask.poller = 2 := by
  decide

/-- C6 amended: every call to `startConsentCheck` unconditionally spawns a
fresh detached reminder-timer thread and a fresh detached poll-loop thread
(the source keeps no handle and checks no flag), so n calls leave n poller
tasks running. -/
theorem startConsentCheck_spawns_each_call (l : List SpawnedTask) :
    startConsentCheck l = l ++ [SpawnedTask.reminderTimer, SpawnedTask.poller] ∧
      (startConsentCheck (startConsentCheck l)).count SpawnedTask.poller
        = l.count SpawnedTask.poller + 2 := by
  refine ⟨rfl, ?_⟩
  unfold startConsentCheck
  rw [List.count_append, List.count_append]
  have h : ([SpawnedTask.reminderTimer, SpawnedTask.poller]).count SpawnedTask.poller = 1 := by
    decide
  rw [h]

/-- C7: a cycle whose fetch fails to parse applies no consent update and
does not stop the loop — with every fetch failing, all cycles run, the
store and `recordingStarted` are untouched and nothing is triggered; and
the loop stops before exhausting its inputs only because `recordingStarted`
became `true` (the source has no cancellation signal, so Started is the
only early exit). -/
theorem checkConsentStatus_fetch_failure_retry (s : ZoomState)
    (inputs : List CycleInput) :
    ((checkConsentStatus s inputs).2.2 < inputs.length →
        (checkConsentStatus s inputs).1.recordingStarted = true) ∧
      (s.recordingStarted = false → (∀ i ∈ inputs, i.fetchResult = none) →
        (checkConsentStatus s inputs).2.2 = inputs.length ∧
          (checkConsentStatus s inputs).1.consentStatus = s.consentStatus ∧
          (checkConsentStatus s inputs).1.recordingStarted = false ∧
          (checkConsentStatus s inputs).2.1 = []) :=
  ⟨checkConsentStatus_early_exit inputs s,
   fun h1 h2 => checkConsentStatus_all_none inputs s h1 h2⟩

/-- C7 witness: a started loop exits early in the Started state, and a
not-started loop fed two failing fetches runs both cycles, changes no
consent state and triggers nothing. -/
theorem checkConsentStatus_fetch_failure_retry_witness :
    (checkConsentStatus ⟨["a"], [], true⟩ [⟨[], none, true⟩]).1.recordingStarted = true ∧
      ((checkConsentStatus ⟨[], [("a", true)], false⟩
            [⟨[(1, "b")], none, true⟩, ⟨[], none, true⟩]).2.2 = 2 ∧
        (checkConsentStatus ⟨[], [("a", true)], false⟩
            [⟨[(1, "b")], none, true⟩, ⟨[], none, true⟩]).1.consentStatus = [("a", true)] ∧
        (checkConsentStatus ⟨[], [("a", true)], false⟩
            [⟨[(1, "b")], none, true⟩, ⟨[], none, true⟩]).1.recordingStarted = false ∧
        (checkConsentStatus ⟨[], [("a", true)], false⟩
            [⟨[(1, "b")], none, true⟩, ⟨[], none, true⟩]).2.1 = []) :=
  ⟨(checkConsentStatus_fetch_failure_retry ⟨["a"], [], true⟩ [⟨[], none, true⟩]).1
      (by decide),
   (checkConsentStatus_fetch_failure_retry ⟨[], [("a", true)], false⟩
      [⟨[(1, "b")], none, true⟩, ⟨[], none, true⟩]).2 rfl
      (by intro i hi; fin_cases hi <;> rfl)⟩

/-- C8: `startRecordingIfAllConsented` invokes the recording start iff
every entry currently in `consentStatus` maps to `true` — vacuously
invoking it when the store is empty — and it neither changes the state nor
depends on `recordingStarted`, so it triggers a start even when
`recordingStarted` is already `true` or no participants are known. -/
theorem startRecordingIfAllConsented_spec (s : ZoomState) (ok : Bool) :
    ((startRecordingIfAllConsented s ok).2 = [Effect.startRecording ok] ↔
        s.consentStatus.all (fun e => e.2) = true) ∧
      (startRecordingIfAllConsented s ok).1 = s ∧
      (s.consentStatus = [] →
        (startRecordingIfAllConsented s ok).2 = [Effect.startRecording ok]) ∧
      (∀ b : Bool,
        (startRecordingIfAllConsented { s with recordingStarted := b } ok).2
          = (startRecordingIfAllConsented s ok).2) := by
  refine ⟨?_, ?_, ?_, ?_⟩
  · by_cases h : s.consentStatus.all (fun e => e.2) <;>
      simp [startRecordingIfAllConsented, h]
  · by_cases h : s.consentStatus.all (fun e => e.2) <;>
      simp [startRecordingIfAllConsented, h]
  · intro he
    simp [startRecordingIfAllConsented, he]
  · intro b
    by_cases h : s.consentStatus.all (fun e => e.2) <;>
      simp [startRecordingIfAllConsented, h]

/-- C8 witness: with an empty store and `recordingStarted` already `true`,
the recording start is invoked anyway, and flipping `recordingStarted` does
not change the triggered effects. -/
theorem startRecordingIfAllConsented_spec_witness :
    (startRecordingIfAllConsented ⟨[], [], true⟩ true).2 = [Effect.startRecording true] ∧
      (startRecordingIfAllConsented ⟨[], [], false⟩ true).2
        = (startRecordingIfAllConsented ⟨[], [], true⟩ true).2 :=
  ⟨(startRecordingIfAllConsented_spec ⟨[], [], true⟩ true).2.2.1 rfl,
   (startRecordingIfAllConsented_spec ⟨[], [], true⟩ true).2.2.2 false⟩

/-- C9: `sendConsentReminder` is not read-only on `consentStatus` — after
it runs, every roster participant has an entry (the `operator[]` reads
insert `false` for missing ids) — and the reminder text is the fixed
header followed by exactly the roster participants whose entry is `false`
or absent, one `"\n- "` line each, in roster iteration order. -/
theorem sendConsentReminder_spec (participants : List String)
    (m : List (String × Bool)) :
    (sendConsentReminder participants m).2 =
        "Please provide your consent for recording." ++
          reminderTextOf (nonConsentingIds participants m) ∧
      ∀ u ∈ participants,
        (lookupKey (sendConsentReminder participants m).1 u).isSome = true :=
  ⟨reminderFold_msg participants m _,
   fun u hu => isSome_reminderFold_fst participants m _ u hu⟩

/-- C9 witness: roster ["a", "b"] with only "a" consenting — the reminder
text lists "b", and "b" (absent from the store before) has an entry
afterwards. -/
theorem sendConsentReminder_spec_witness :
    (sendConsentReminder ["a", "b"] [("a", true)]).2 =
        "Please provide your consent for recording." ++
          reminderTextOf (nonConsentingIds ["a", "b"] [("a", true)]) ∧
      (lookupKey (sendConsentReminder ["a", "b"] [("a", true)]).1 "b").isSome = true :=
  ⟨(sendConsentReminder_spec ["a", "b"] [("a", true)]).1,
   (sendConsentReminder_spec ["a", "b"] [("a", true)]).2 "b" (by simp)⟩

/-- C10: the roster is keyed by display name — two distinct user ids with
the same name collapse into a single roster entry (the rebuilt roster is
always duplicate-free), and a single consent grant for that name makes the
collapsed entry map to `true`, counting for both users. -/
theorem fetchParticipants_name_collapse (uid1 uid2 : Nat) (name : String)
    (s : ZoomState) (m : List (String × Bool)) (h1 : uid1 ≠ 0) (h2 : uid2 ≠ 0) :
    (fetchParticipants [(uid1, name), (uid2, name)] s).participants = [name] ∧
      lookupKey (applyConsent
          (fetchParticipants [(uid1, name), (uid2, name)] s).participants [name] m)
        name = some true ∧
      ∀ l : List (Nat × String), (buildRoster l).Nodup := by
  have hr : buildRoster [(uid1, name), (uid2, name)] = [name] := by
    simp [buildRoster, insertSet, h1, h2]
  refine ⟨hr, ?_, buildRoster_nodup⟩
  show lookupKey (applyConsent (buildRoster [(uid1, name), (uid2, name)]) [name] m)
    name = some true
  rw [hr, lookupKey_applyConsent, if_pos (List.mem_singleton.mpr rfl)]
  simp

/-- C10 witness: user ids 1 and 2 both named "x" yield the one-entry roster
["x"], and granting "x" consent maps the collapsed entry to `true`. -/
theorem fetchParticipants_name_collapse_witness :
    (fetchParticipants [(1, "x"), (2, "x")] ⟨[], [], false⟩).participants = ["x"] ∧
      lookupKey (applyConsent
          (fetchParticipants [(1, "x"), (2, "x")] ⟨[], [], false⟩).participants ["x"] [])
        "x" = some true ∧
      ∀ l : List (Nat × String), (buildRoster l).Nodup :=
  fetchParticipants_name_collapse 1 2 "x" ⟨[], [], false⟩ [] (by decide) (by decide)
